import Mathlib

/-!
Verification development for the overlapped-I/O networking layer
(`src/handle.rs`, `src/net.rs`).

The raw OS memory handled by the address codec is modelled as a `List Nat`
of byte values; field loads performed through typed pointers on the
(little-endian) target are modelled by `readLE`, and the network-to-host
conversions `ntoh` on `u16`/`u32` by `ntoh16`/`ntoh32`.  Fallible
operations return an explicit three-way result `Res` (success, OS error
code, panic), mirroring `io::Result` plus `assert!`/`unwrap` panics.
OS calls themselves are modelled by their observable outputs: the raw
return value of the call and the value of the last-error mechanism
(`WSAGetLastError` / `GetLastError`) at the failure site, both passed as
explicit parameters.
-/

namespace Miow

/-- Windows address-family tag for IPv4 (`AF_INET`). -/
def AF_INET : Nat := 2

/-- Windows address-family tag for IPv6 (`AF_INET6`). -/
def AF_INET6 : Nat := 23

/-- The canonical pending code returned by `WSAGetLastError` (`WSA_IO_PENDING`). -/
def WSA_IO_PENDING : Int := 997

/-- The canonical pending code for kernel handle calls (`ERROR_IO_PENDING`). -/
def ERROR_IO_PENDING : Int := 997

/-- Return value signalling failure of a winsock call (`SOCKET_ERROR`). -/
def SOCKET_ERROR : Int := -1

/-- The winapi `TRUE` value returned by `BOOL`-valued extension calls. -/
def TRUE_val : Int := 1

/-- Byte size of `sa_family_t` (a `u16` on Windows). -/
def sizeof_sa_family_t : Nat := 2

/-- Byte size of `sockaddr_in`: family (2) + port (2) + addr (4) + zero padding (8). -/
def sizeof_sockaddr_in : Nat := 16

/-- Byte size of `sockaddr_in6`: family (2) + port (2) + flowinfo (4) + addr (16) + scope (4). -/
def sizeof_sockaddr_in6 : Nat := 28

/-- Byte size of `SOCKADDR_STORAGE`, the maximum raw socket address size. -/
def sizeof_SOCKADDR_STORAGE : Nat := 128

/-- Byte size of `usize` on the 64-bit target (`mem::size_of_val(&ret)`). -/
def sizeof_usize : Nat := 8

/-- A portable IPv4 address, four octets as in `Ipv4Addr::new(a, b, c, d)`. -/
structure Ipv4Addr where
  a : Nat
  b : Nat
  c : Nat
  d : Nat
deriving DecidableEq

/-- A portable IPv6 address, eight 16-bit segments as in `Ipv6Addr::new`. -/
structure Ipv6Addr where
  s0 : Nat
  s1 : Nat
  s2 : Nat
  s3 : Nat
  s4 : Nat
  s5 : Nat
  s6 : Nat
  s7 : Nat
deriving DecidableEq

/-- A portable IPv4 socket address (`SocketAddrV4`). -/
structure SocketAddrV4 where
  ip : Ipv4Addr
  port : Nat
deriving DecidableEq

/-- A portable IPv6 socket address (`SocketAddrV6`), with flow-info and scope-id. -/
structure SocketAddrV6 where
  ip : Ipv6Addr
  port : Nat
  flowinfo : Nat
  scope_id : Nat
deriving DecidableEq

/-- The portable socket address (`std::net::SocketAddr`). -/
inductive SocketAddr where
  | V4 : SocketAddrV4 → SocketAddr
  | V6 : SocketAddrV6 → SocketAddr
deriving DecidableEq

/-- The `len as usize` cast applied to the `c_int` length parameter: the
value reinterpreted modulo `2 ^ 64` (sign extension of `i32` to the 64-bit
`usize`). -/
def usizeOfInt (len : Int) : Nat := (len % 2 ^ 64).toNat

/-- Little-endian load of `n` bytes at offset `off` of the buffer, modelling a
typed field read on the little-endian target.  Bytes past the end of the list
read as zero; the theorems below establish which prefix of the buffer the
decoder actually depends on. -/
def readLE : List Nat → Nat → Nat → Nat
  | _, _, 0 => 0
  | bs, off, n + 1 => bs.getD off 0 + 256 * readLE bs (off + 1) n

/-- Network-to-host conversion of a `u16` (`u16::from_be`, a byte swap). -/
def ntoh16 (v : Nat) : Nat := v % 256 * 256 + v / 256 % 256

/-- Network-to-host conversion of a `u32` (`u32::from_be`, a byte swap). -/
def ntoh32 (v : Nat) : Nat :=
  v % 256 * 2 ^ 24 + v / 2 ^ 8 % 256 * 2 ^ 16 + v / 2 ^ 16 % 256 * 2 ^ 8 + v / 2 ^ 24 % 256

/-- The decoder `ptrs_to_socket_addr` of `src/net.rs`: given the bytes behind
the raw pointer and the declared `c_int` length, validate the length against
the family-tag size, dispatch on the `sa_family` field, re-validate the length
against the matched family's structure size, and reconstruct the portable
address converting each multi-byte field from network byte order.  Returns
`none` for an unrecognized family or an insufficient length. -/
def ptrs_to_socket_addr (bytes : List Nat) (len : Int) : Option SocketAddr :=
  if usizeOfInt len < sizeof_sa_family_t then
    none
  else if readLE bytes 0 2 = AF_INET ∧ sizeof_sockaddr_in ≤ usizeOfInt len then
    some (SocketAddr.V4
      ⟨⟨ntoh32 (readLE bytes 4 4) / 2 ^ 24 % 256,
        ntoh32 (readLE bytes 4 4) / 2 ^ 16 % 256,
        ntoh32 (readLE bytes 4 4) / 2 ^ 8 % 256,
        ntoh32 (readLE bytes 4 4) % 256⟩,
       ntoh16 (readLE bytes 2 2)⟩)
  else if readLE bytes 0 2 = AF_INET6 ∧ sizeof_sockaddr_in6 ≤ usizeOfInt len then
    some (SocketAddr.V6
      ⟨⟨ntoh16 (readLE bytes 8 2), ntoh16 (readLE bytes 10 2),
        ntoh16 (readLE bytes 12 2), ntoh16 (readLE bytes 14 2),
        ntoh16 (readLE bytes 16 2), ntoh16 (readLE bytes 18 2),
        ntoh16 (readLE bytes 20 2), ntoh16 (readLE bytes 22 2)⟩,
       ntoh16 (readLE bytes 2 2),
       ntoh32 (readLE bytes 4 4),
       ntoh32 (readLE bytes 24 4)⟩)
  else
    none

/-- Big-endian (network order) byte pair of a `u16` value. -/
def be16 (v : Nat) : List Nat := [v / 256 % 256, v % 256]

/-- Big-endian (network order) byte quadruple of a `u32` value. -/
def be32 (v : Nat) : List Nat :=
  [v / 2 ^ 24 % 256, v / 2 ^ 16 % 256, v / 2 ^ 8 % 256, v % 256]

/-- Modelled from the spec: the in-memory representation of the standard
library's `SocketAddrV4` value that `socket_addr_to_ptrs` hands out a pointer
to (that layout lives outside this repository).  Per the spec's external
interface section the layout matches `sockaddr_in` field for field with
multi-byte fields in network byte order: family tag, port, address, then the
zero `sin_zero` padding. -/
def sockaddr_in_bytes (a : SocketAddrV4) : List Nat :=
  [AF_INET % 256, AF_INET / 256 % 256] ++ be16 a.port ++
    [a.ip.a, a.ip.b, a.ip.c, a.ip.d] ++ List.replicate 8 0

/-- Modelled from the spec: the in-memory representation of the standard
library's `SocketAddrV6` value, matching `sockaddr_in6` field for field with
multi-byte fields in network byte order: family tag, port, flow-info, the
eight address segments, then the scope-id. -/
def sockaddr_in6_bytes (a : SocketAddrV6) : List Nat :=
  [AF_INET6 % 256, AF_INET6 / 256 % 256] ++ be16 a.port ++ be32 a.flowinfo ++
    be16 a.ip.s0 ++ be16 a.ip.s1 ++ be16 a.ip.s2 ++ be16 a.ip.s3 ++
    be16 a.ip.s4 ++ be16 a.ip.s5 ++ be16 a.ip.s6 ++ be16 a.ip.s7 ++
    be32 a.scope_id

/-- The encoder `socket_addr_to_ptrs` of `src/net.rs`: a pointer to the
address value's memory representation together with the `c_int` byte size of
the corresponding raw structure. -/
def socket_addr_to_ptrs (addr : SocketAddr) : List Nat × Int :=
  match addr with
  | .V4 a => (sockaddr_in_bytes a, (sizeof_sockaddr_in : Int))
  | .V6 a => (sockaddr_in6_bytes a, (sizeof_sockaddr_in6 : Int))

/-- Field ranges of a well-formed IPv4 socket address (octets are `u8`,
the port is `u16`). -/
def SocketAddrV4.valid (a : SocketAddrV4) : Prop :=
  a.ip.a < 256 ∧ a.ip.b < 256 ∧ a.ip.c < 256 ∧ a.ip.d < 256 ∧ a.port < 65536

/-- Field ranges of a well-formed IPv6 socket address (segments and port are
`u16`, flow-info and scope-id are `u32`). -/
def SocketAddrV6.valid (a : SocketAddrV6) : Prop :=
  a.ip.s0 < 65536 ∧ a.ip.s1 < 65536 ∧ a.ip.s2 < 65536 ∧ a.ip.s3 < 65536 ∧
  a.ip.s4 < 65536 ∧ a.ip.s5 < 65536 ∧ a.ip.s6 < 65536 ∧ a.ip.s7 < 65536 ∧
  a.port < 65536 ∧ a.flowinfo < 2 ^ 32 ∧ a.scope_id < 2 ^ 32

/-- Field ranges of a well-formed portable socket address. -/
def SocketAddr.valid : SocketAddr → Prop
  | .V4 a => a.valid
  | .V6 a => a.valid

/-- The byte size of the raw structure belonging to a family tag: the full
structure size for the two recognized families, otherwise just the family-tag
size (all the decoder reads before rejecting). -/
def famStructSize (fam : Nat) : Nat :=
  if fam = AF_INET then sizeof_sockaddr_in
  else if fam = AF_INET6 then sizeof_sockaddr_in6
  else sizeof_sa_family_t

end Miow

namespace Miow

/-- Outcome of a fallible call in this layer: success, an error carrying the
raw OS error code (`io::Error::from_raw_os_error`), or a panic
(`assert!` / `unwrap` failure). -/
inductive Res (α : Type) where
  | ok : α → Res α
  | err : Int → Res α
  | panicked : Res α
deriving DecidableEq

/-- The `last_err` helper of `src/net.rs`: consult `WSAGetLastError` (passed
here as the observed value `lastError`); the pending code means the overlapped
operation was accepted (`Ok(false)`), anything else is a genuine error. -/
def last_err (lastError : Int) : Res Bool :=
  if lastError = WSA_IO_PENDING then .ok false else .err lastError

/-- The `cvt` helper of `src/net.rs`: a winsock call returning `SOCKET_ERROR`
failed and defers to `last_err`; any other return is immediate success. -/
def cvt (i : Int) (lastError : Int) : Res Bool :=
  if i = SOCKET_ERROR then last_err lastError else .ok true

/-- Modelled from the spec: the crate-root `cvt` for `BOOL`-returning kernel
calls used by `src/handle.rs` (its definition lives in the crate root, outside
`src/`).  Per the spec's pending-detection policy, a zero return reports
failure carrying the OS last-error value; any nonzero return is success. -/
def rootCvt (i : Int) (lastError : Int) : Res Int :=
  if i = 0 then .err lastError else .ok i

/-- The `Handle` wrapper of `src/handle.rs`: exclusive owner of one raw OS
handle value. -/
structure Handle where
  raw : Int
deriving DecidableEq

/-- `Handle::new`: wrap a raw handle value. -/
def Handle.new (handle : Int) : Handle := ⟨handle⟩

/-- `Handle::into_raw`: return the wrapped raw value and `mem::forget` the
wrapper, so `Drop` never runs.  The second component is the list of
`CloseHandle` calls this path performs: none. -/
def Handle.into_raw (h : Handle) : Int × List Int := (h.raw, [])

/-- `Drop for Handle`: unconditionally call `CloseHandle(self.0)` exactly
once, ignoring its return value (`closeRet`).  The result is the unit value
paired with the list of `CloseHandle` calls performed. -/
def Handle.drop (h : Handle) (closeRet : Int) : Unit × List Int := ((), [h.raw])

/-- `Handle::read_overlapped`: issue `ReadFile` with an `OVERLAPPED` pointer;
`osRet` is the call's `BOOL` return and `lastError` the OS last-error value at
the failure site.  Success maps to `Ok(true)`; a failure whose error code is
the pending code maps to `Ok(false)`; any other failure is returned as is. -/
def Handle.read_overlapped (h : Handle) (osRet lastError : Int) : Res Bool :=
  match rootCvt osRet lastError with
  | .ok _ => .ok true
  | .err e => if e = ERROR_IO_PENDING then .ok false else .err e
  | .panicked => .panicked

/-- `Handle::write_overlapped`: identical outcome logic to
`Handle::read_overlapped`, issued over `WriteFile`. -/
def Handle.write_overlapped (h : Handle) (osRet lastError : Int) : Res Bool :=
  match rootCvt osRet lastError with
  | .ok _ => .ok true
  | .err e => if e = ERROR_IO_PENDING then .ok false else .err e
  | .panicked => .panicked

/-- `TcpStreamExt::read_overlapped` of `src/net.rs`: wraps the buffer in a
`WSABUF` of length 1, issues `WSARecv` (return value `r`, last-socket-error
`lastError`) and classifies the outcome through `cvt`. -/
def TcpStream.read_overlapped (r lastError : Int) : Res Bool := cvt r lastError

/-- `TcpStreamExt::write_overlapped`: as `read_overlapped`, over `WSASend`. -/
def TcpStream.write_overlapped (r lastError : Int) : Res Bool := cvt r lastError

/-- `UdpSocketExt::recv_from_overlapped`: as the stream operations, over
`WSARecvFrom`, additionally passing a `SocketAddrBuf` the OS fills in. -/
def UdpSocket.recv_from_overlapped (r lastError : Int) : Res Bool := cvt r lastError

/-- `UdpSocketExt::send_to_overlapped`: encodes the destination address via
`socket_addr_to_ptrs` (second component: the pointer and length handed to
`WSASendTo`) and classifies the call's outcome through `cvt`. -/
def UdpSocket.send_to_overlapped (addr : SocketAddr) (r lastError : Int) :
    Res Bool × (List Nat × Int) :=
  (cvt r lastError, socket_addr_to_ptrs addr)

/-- `TcpBuilderExt::connect_overlapped`: resolve the `ConnectEx` extension
pointer (`getRes`, with `assert!(ptr != 0)`), invoke it (`BOOL` return `r`,
last-socket-error `lastError`), classify synchronous-vs-pending, then convert
the builder's socket to a stream (`toStream`, a fallible conversion whose
error propagates via `try!`). -/
def connect_overlapped (getRes : Res Nat) (r lastError : Int) (toStream : Res Int) :
    Res (Int × Bool) :=
  match getRes with
  | .err e => .err e
  | .panicked => .panicked
  | .ok ptr =>
    if ptr = 0 then .panicked
    else
      match (if r = TRUE_val then Res.ok true else last_err lastError) with
      | .err e => .err e
      | .panicked => .panicked
      | .ok succeeded =>
        match toStream with
        | .err e => .err e
        | .panicked => .panicked
        | .ok s => .ok (s, succeeded)

/-- `TcpListenerExt::accept_overlapped`: resolve the `AcceptEx` extension
pointer (`getRes`, with `assert!(ptr != 0)`), invoke it over the listener and
the pre-configured accept socket, classify synchronous-vs-pending, then
convert the accept socket to a stream with `.unwrap()`: a failed conversion
panics instead of surfacing as an error. -/
def accept_overlapped (getRes : Res Nat) (r lastError : Int) (toStream : Res Int) :
    Res (Int × Bool) :=
  match getRes with
  | .err e => .err e
  | .panicked => .panicked
  | .ok ptr =>
    if ptr = 0 then .panicked
    else
      match (if r = TRUE_val then Res.ok true else last_err lastError) with
      | .err e => .err e
      | .panicked => .panicked
      | .ok succeeded =>
        match toStream with
        | .ok s => .ok (s, succeeded)
        | .err _ => .panicked
        | .panicked => .panicked

/-- `WsaExtension::get` of `src/net.rs`, per capability identifier.  `prev` is
the cached atomic value loaded at entry; in release builds
(`debugAssertions = false`) a nonzero cache short-circuits without a syscall.
Otherwise `WSAIoctl` with `SIO_GET_EXTENSION_FUNCTION_POINTER` runs (return
`r`, last-socket-error `lastError`, retrieved pointer `ret`, output byte count
`bytes`) and its result goes through `cvt`; on success the debug build asserts
the byte count and agreement of `ret` with any nonzero cached value, then the
value is stored.  Returns the call's result paired with the new cache
contents. -/
def WsaExtension.get (debugAssertions : Bool) (prev : Nat) (r lastError : Int)
    (ret bytes : Nat) : Res Nat × Nat :=
  if prev ≠ 0 ∧ ¬debugAssertions then (.ok prev, prev)
  else
    match cvt r lastError with
    | .err e => (.err e, prev)
    | .panicked => (.panicked, prev)
    | .ok _ =>
      if debugAssertions ∧ bytes ≠ sizeof_usize then (.panicked, prev)
      else if debugAssertions ∧ ¬(prev = 0 ∨ prev = ret) then (.panicked, prev)
      else (.ok ret, ret)

/-- The `SocketAddrBuf` of `src/net.rs`: `SOCKADDR_STORAGE` bytes plus the
`c_int` length field. -/
structure SocketAddrBuf where
  buf : List Nat
  len : Int
deriving DecidableEq

/-- `SocketAddrBuf::new`: zeroed storage, length set to the full storage
size. -/
def SocketAddrBuf.new : SocketAddrBuf :=
  ⟨List.replicate sizeof_SOCKADDR_STORAGE 0, (sizeof_SOCKADDR_STORAGE : Int)⟩

/-- `SocketAddrBuf::to_socket_addr`: decode the buffer through
`ptrs_to_socket_addr`. -/
def SocketAddrBuf.to_socket_addr (b : SocketAddrBuf) : Option SocketAddr :=
  ptrs_to_socket_addr b.buf b.len

/-- Byte offset of the `local` field of `AcceptAddrsBuf` (`repr(C)`). -/
def AcceptAddrsBuf.local_offset : Nat := 0

/-- Byte offset of the `_pad1` field: right after the local storage. -/
def AcceptAddrsBuf.pad1_offset : Nat := AcceptAddrsBuf.local_offset + sizeof_SOCKADDR_STORAGE

/-- Byte offset of the `remote` field: after local storage and 16 pad bytes. -/
def AcceptAddrsBuf.remote_offset : Nat := AcceptAddrsBuf.pad1_offset + 16

/-- Byte offset of the `_pad2` field: right after the remote storage. -/
def AcceptAddrsBuf.pad2_offset : Nat := AcceptAddrsBuf.remote_offset + sizeof_SOCKADDR_STORAGE

/-- Total byte size of `AcceptAddrsBuf` (`mem::size_of_val(self)`). -/
def AcceptAddrsBuf.size : Nat := AcceptAddrsBuf.pad2_offset + 16

/-- `AcceptAddrsBuf::new`: the whole structure is `mem::zeroed()`. -/
def AcceptAddrsBuf.new : List Nat := List.replicate AcceptAddrsBuf.size 0

/-- `AcceptAddrsBuf::args`: the three `DWORD` arguments handed to `AcceptEx`
(the omitted first component of the source tuple is the pointer to the buffer
itself): receive-data length 0, local-address length equal to the byte offset
of the `remote` field, remote-address length equal to the remaining bytes of
the structure. -/
def AcceptAddrsBuf.args : Nat × Nat × Nat :=
  (0, AcceptAddrsBuf.remote_offset, AcceptAddrsBuf.size - AcceptAddrsBuf.remote_offset)

end Miow

namespace Miow

theorem usizeOfInt_16 : usizeOfInt 16 = 16 := by decide

theorem usizeOfInt_28 : usizeOfInt 28 = 28 := by decide

theorem usizeOfInt_128 : usizeOfInt 128 = 128 := by decide

theorem ntoh16_clean (q r : Nat) (hq : q < 256) (hr : r < 256) :
    ntoh16 (q + 256 * r) = q * 256 + r := by
  unfold ntoh16
  omega

theorem ntoh32_clean (q r s t : Nat) (hq : q < 256) (hr : r < 256) (hs : s < 256) (ht : t < 256) :
    ntoh32 (q + 256 * (r + 256 * (s + 256 * t))) =
      q * 2 ^ 24 + r * 2 ^ 16 + s * 2 ^ 8 + t := by
  unfold ntoh32
  norm_num
  omega

theorem roundtrip_v4 (a : SocketAddrV4) (h : a.valid) :
    ptrs_to_socket_addr (socket_addr_to_ptrs (.V4 a)).1 (socket_addr_to_ptrs (.V4 a)).2 =
      some (.V4 a) := by
  obtain ⟨h0, h1, h2, h3, hp⟩ := h
  obtain ⟨⟨x0, x1, x2, x3⟩, p⟩ := a
  simp only [SocketAddrV4.valid] at h0 h1 h2 h3 hp
  simp [socket_addr_to_ptrs, sockaddr_in_bytes, be16, ptrs_to_socket_addr, usizeOfInt_16,
    readLE, sizeof_sa_family_t, sizeof_sockaddr_in, sizeof_sockaddr_in6, AF_INET, AF_INET6,
    List.getD]
  rw [ntoh32_clean x0 x1 x2 x3 h0 h1 h2 h3,
    ntoh16_clean (p / 256 % 256) (p % 256) (by omega) (by omega)]
  refine ⟨⟨by omega, by omega, by omega, by omega⟩, by omega⟩

theorem roundtrip_v6 (a : SocketAddrV6) (h : a.valid) :
    ptrs_to_socket_addr (socket_addr_to_ptrs (.V6 a)).1 (socket_addr_to_ptrs (.V6 a)).2 =
      some (.V6 a) := by
  obtain ⟨h0, h1, h2, h3, h4, h5, h6, h7, hp, hf, hs⟩ := h
  obtain ⟨⟨s0, s1, s2, s3, s4, s5, s6, s7⟩, p, f, sc⟩ := a
  simp only [SocketAddrV6.valid] at h0 h1 h2 h3 h4 h5 h6 h7 hp hf hs
  simp [socket_addr_to_ptrs, sockaddr_in6_bytes, be16, be32, ptrs_to_socket_addr, usizeOfInt_28,
    readLE, sizeof_sa_family_t, sizeof_sockaddr_in, sizeof_sockaddr_in6, AF_INET, AF_INET6,
    List.getD]
  rw [ntoh16_clean (s0 / 256 % 256) (s0 % 256) (by omega) (by omega),
    ntoh16_clean (s1 / 256 % 256) (s1 % 256) (by omega) (by omega),
    ntoh16_clean (s2 / 256 % 256) (s2 % 256) (by omega) (by omega),
    ntoh16_clean (s3 / 256 % 256) (s3 % 256) (by omega) (by omega),
    ntoh16_clean (s4 / 256 % 256) (s4 % 256) (by omega) (by omega),
    ntoh16_clean (s5 / 256 % 256) (s5 % 256) (by omega) (by omega),
    ntoh16_clean (s6 / 256 % 256) (s6 % 256) (by omega) (by omega),
    ntoh16_clean (s7 / 256 % 256) (s7 % 256) (by omega) (by omega),
    ntoh16_clean (p / 256 % 256) (p % 256) (by omega) (by omega),
    ntoh32_clean (f / 16777216 % 256) (f / 65536 % 256) (f / 256 % 256) (f % 256)
      (by omega) (by omega) (by omega) (by omega),
    ntoh32_clean (sc / 16777216 % 256) (sc / 65536 % 256) (sc / 256 % 256) (sc % 256)
      (by omega) (by omega) (by omega) (by omega)]
  norm_num
  refine ⟨⟨by omega, by omega, by omega, by omega, by omega, by omega, by omega, by omega⟩,
    by omega, by omega, by omega⟩

end Miow

namespace Miow

theorem readLE_congr (n : Nat) : ∀ (off : Nat) (b1 b2 : List Nat),
    (∀ i, i < off + n → b1.getD i 0 = b2.getD i 0) →
    readLE b1 off n = readLE b2 off n := by
  induction n with
  | zero => intro off b1 b2 _; rfl
  | succ m ih =>
    intro off b1 b2 h
    simp only [readLE]
    rw [h off (by omega), ih (off + 1) b1 b2 (fun i hi => h i (by omega))]

theorem getD_take (b : List Nat) : ∀ (m i : Nat), i < m → (b.take m).getD i 0 = b.getD i 0 := by
  induction b with
  | nil => intro m i _; simp
  | cons x xs ih =>
    intro m i him
    match m, i with
    | m + 1, 0 => simp
    | m + 1, i + 1 =>
      simp only [List.take_succ_cons, List.getD_cons_succ]
      exact ih m i (by omega)

theorem readLE_take (b : List Nat) (k off n : Nat) (h : off + n ≤ k) :
    readLE (b.take k) off n = readLE b off n :=
  readLE_congr n off _ _ (fun i hi => getD_take b k i (by omega))

theorem usizeOfInt_eq (len : Int) (h0 : 0 ≤ len) (h1 : len < 2 ^ 64) :
    usizeOfInt len = len.toNat := by
  unfold usizeOfInt
  rw [Int.emod_eq_of_lt h0 h1]

theorem decode_guard_short (bytes : List Nat) (len : Int) (h0 : 0 ≤ len) (h : len < 2) :
    ptrs_to_socket_addr bytes len = none := by
  unfold ptrs_to_socket_addr
  have hu : usizeOfInt len = len.toNat := usizeOfInt_eq len h0 (lt_of_lt_of_le h (by norm_num))
  have hlt : usizeOfInt len < sizeof_sa_family_t := by
    rw [hu]
    unfold sizeof_sa_family_t
    omega
  simp [hlt]

theorem decode_guard_v4 (bytes : List Nat) (len : Int) (h0 : 0 ≤ len) (h : len < 16)
    (hfam : readLE bytes 0 2 = AF_INET) :
    ptrs_to_socket_addr bytes len = none := by
  unfold ptrs_to_socket_addr
  have hu : usizeOfInt len = len.toNat := usizeOfInt_eq len h0 (lt_of_lt_of_le h (by norm_num))
  have h1 : ¬ sizeof_sockaddr_in ≤ usizeOfInt len := by
    rw [hu]
    unfold sizeof_sockaddr_in
    omega
  have h2 : readLE bytes 0 2 ≠ AF_INET6 := by
    rw [hfam]
    decide
  simp [h1, h2]

theorem decode_guard_v6 (bytes : List Nat) (len : Int) (h0 : 0 ≤ len) (h : len < 28)
    (hfam : readLE bytes 0 2 = AF_INET6) :
    ptrs_to_socket_addr bytes len = none := by
  unfold ptrs_to_socket_addr
  have hu : usizeOfInt len = len.toNat := usizeOfInt_eq len h0 (lt_of_lt_of_le h (by norm_num))
  have h1 : ¬ sizeof_sockaddr_in6 ≤ usizeOfInt len := by
    rw [hu]
    unfold sizeof_sockaddr_in6
    omega
  have h2 : readLE bytes 0 2 ≠ AF_INET := by
    rw [hfam]
    decide
  simp [h1, h2]

theorem decode_take (bytes : List Nat) (len : Int) :
    ptrs_to_socket_addr bytes len = ptrs_to_socket_addr (bytes.take (usizeOfInt len)) len := by
  unfold ptrs_to_socket_addr
  by_cases hshort : usizeOfInt len < sizeof_sa_family_t
  · simp [hshort]
  · have h2 : 2 ≤ usizeOfInt len := by
      unfold sizeof_sa_family_t at hshort
      omega
    rw [readLE_take bytes (usizeOfInt len) 0 2 (by omega)]
    rw [if_neg hshort, if_neg hshort]
    by_cases hv4 : readLE bytes 0 2 = AF_INET ∧ sizeof_sockaddr_in ≤ usizeOfInt len
    · have h16 : 16 ≤ usizeOfInt len := hv4.2
      rw [if_pos hv4, if_pos hv4]
      rw [readLE_take bytes (usizeOfInt len) 4 4 (by omega),
        readLE_take bytes (usizeOfInt len) 2 2 (by omega)]
    · rw [if_neg hv4, if_neg hv4]
      by_cases hv6 : readLE bytes 0 2 = AF_INET6 ∧ sizeof_sockaddr_in6 ≤ usizeOfInt len
      · have h28 : (28 : Nat) ≤ usizeOfInt len := hv6.2
        rw [if_pos hv6, if_pos hv6]
        rw [readLE_take bytes (usizeOfInt len) 8 2 (by omega),
          readLE_take bytes (usizeOfInt len) 10 2 (by omega),
          readLE_take bytes (usizeOfInt len) 12 2 (by omega),
          readLE_take bytes (usizeOfInt len) 14 2 (by omega),
          readLE_take bytes (usizeOfInt len) 16 2 (by omega),
          readLE_take bytes (usizeOfInt len) 18 2 (by omega),
          readLE_take bytes (usizeOfInt len) 20 2 (by omega),
          readLE_take bytes (usizeOfInt len) 22 2 (by omega),
          readLE_take bytes (usizeOfInt len) 2 2 (by omega),
          readLE_take bytes (usizeOfInt len) 4 4 (by omega),
          readLE_take bytes (usizeOfInt len) 24 4 (by omega)]
      · rw [if_neg hv6, if_neg hv6]

end Miow

namespace Miow

theorem famStructSize_ge_two (fam : Nat) : 2 ≤ famStructSize fam := by
  unfold famStructSize sizeof_sockaddr_in sizeof_sockaddr_in6 sizeof_sa_family_t
  split <;> try omega
  split <;> omega

/-- C10: the decoder's result depends only on the prefix of the buffer up to
the recognized family's structure size: two buffers with the same declared
length that agree on that prefix decode identically, so bytes beyond the
structure size never influence the decoded address. -/
theorem decode_prefix (b1 b2 : List Nat) (len : Int)
    (h : ∀ i, i < famStructSize (readLE b1 0 2) → b1.getD i 0 = b2.getD i 0) :
    ptrs_to_socket_addr b1 len = ptrs_to_socket_addr b2 len := by
  have hfam : readLE b1 0 2 = readLE b2 0 2 :=
    readLE_congr 2 0 b1 b2 (fun i hi => h i (lt_of_lt_of_le hi (famStructSize_ge_two _)))
  unfold ptrs_to_socket_addr
  rw [← hfam]
  by_cases hshort : usizeOfInt len < sizeof_sa_family_t
  · simp [hshort]
  · rw [if_neg hshort, if_neg hshort]
    by_cases hv4 : readLE b1 0 2 = AF_INET ∧ sizeof_sockaddr_in ≤ usizeOfInt len
    · have hsz : famStructSize (readLE b1 0 2) = 16 := by
        rw [hv4.1]
        decide
      rw [if_pos hv4, if_pos hv4]
      rw [readLE_congr 4 4 b1 b2 (fun i hi => h i (by omega)),
        readLE_congr 2 2 b1 b2 (fun i hi => h i (by omega))]
    · rw [if_neg hv4, if_neg hv4]
      by_cases hv6 : readLE b1 0 2 = AF_INET6 ∧ sizeof_sockaddr_in6 ≤ usizeOfInt len
      · have hsz : famStructSize (readLE b1 0 2) = 28 := by
          rw [hv6.1]
          decide
        rw [if_pos hv6, if_pos hv6]
        rw [readLE_congr 2 8 b1 b2 (fun i hi => h i (by omega)),
          readLE_congr 2 10 b1 b2 (fun i hi => h i (by omega)),
          readLE_congr 2 12 b1 b2 (fun i hi => h i (by omega)),
          readLE_congr 2 14 b1 b2 (fun i hi => h i (by omega)),
          readLE_congr 2 16 b1 b2 (fun i hi => h i (by omega)),
          readLE_congr 2 18 b1 b2 (fun i hi => h i (by omega)),
          readLE_congr 2 20 b1 b2 (fun i hi => h i (by omega)),
          readLE_congr 2 22 b1 b2 (fun i hi => h i (by omega)),
          readLE_congr 2 2 b1 b2 (fun i hi => h i (by omega)),
          readLE_congr 4 4 b1 b2 (fun i hi => h i (by omega)),
          readLE_congr 4 24 b1 b2 (fun i hi => h i (by omega))]
      · rw [if_neg hv6, if_neg hv6]

end Miow

namespace Miow

/-- C3: every overlapped operation has a three-way outcome: the OS call
succeeding immediately yields success-with-true; on an OS failure the
last-error value is consulted and the call yields success-with-false exactly
when that value is the canonical pending code, and otherwise surfaces the
error. -/
theorem overlapped_three_way :
    (∀ h r e, r ≠ 0 → Handle.read_overlapped h r e = .ok true) ∧
    (∀ h r e, r = 0 → ((Handle.read_overlapped h r e = .ok false) ↔ e = ERROR_IO_PENDING)) ∧
    (∀ h r e, r = 0 → e ≠ ERROR_IO_PENDING → Handle.read_overlapped h r e = .err e) ∧
    (∀ h r e, r ≠ 0 → Handle.write_overlapped h r e = .ok true) ∧
    (∀ h r e, r = 0 → ((Handle.write_overlapped h r e = .ok false) ↔ e = ERROR_IO_PENDING)) ∧
    (∀ h r e, r = 0 → e ≠ ERROR_IO_PENDING → Handle.write_overlapped h r e = .err e) ∧
    (∀ r e, r ≠ SOCKET_ERROR → TcpStream.read_overlapped r e = .ok true) ∧
    (∀ r e, r = SOCKET_ERROR →
      ((TcpStream.read_overlapped r e = .ok false) ↔ e = WSA_IO_PENDING)) ∧
    (∀ r e, r = SOCKET_ERROR → e ≠ WSA_IO_PENDING → TcpStream.read_overlapped r e = .err e) ∧
    (∀ r e, r ≠ SOCKET_ERROR → TcpStream.write_overlapped r e = .ok true) ∧
    (∀ r e, r = SOCKET_ERROR →
      ((TcpStream.write_overlapped r e = .ok false) ↔ e = WSA_IO_PENDING)) ∧
    (∀ r e, r = SOCKET_ERROR → e ≠ WSA_IO_PENDING → TcpStream.write_overlapped r e = .err e) ∧
    (∀ r e, r ≠ SOCKET_ERROR → UdpSocket.recv_from_overlapped r e = .ok true) ∧
    (∀ r e, r = SOCKET_ERROR →
      ((UdpSocket.recv_from_overlapped r e = .ok false) ↔ e = WSA_IO_PENDING)) ∧
    (∀ r e, r = SOCKET_ERROR → e ≠ WSA_IO_PENDING →
      UdpSocket.recv_from_overlapped r e = .err e) ∧
    (∀ a r e, r ≠ SOCKET_ERROR → (UdpSocket.send_to_overlapped a r e).1 = .ok true) ∧
    (∀ a r e, r = SOCKET_ERROR →
      (((UdpSocket.send_to_overlapped a r e).1 = .ok false) ↔ e = WSA_IO_PENDING)) ∧
    (∀ a r e, r = SOCKET_ERROR → e ≠ WSA_IO_PENDING →
      (UdpSocket.send_to_overlapped a r e).1 = .err e) ∧
    (∀ p r e s, p ≠ 0 → r = TRUE_val →
      connect_overlapped (.ok p) r e (.ok s) = .ok (s, true)) ∧
    (∀ p r e s, p ≠ 0 → r ≠ TRUE_val →
      ((connect_overlapped (.ok p) r e (.ok s) = .ok (s, false)) ↔ e = WSA_IO_PENDING)) ∧
    (∀ p r e s, p ≠ 0 → r ≠ TRUE_val → e ≠ WSA_IO_PENDING →
      connect_overlapped (.ok p) r e (.ok s) = .err e) ∧
    (∀ p r e s, p ≠ 0 → r = TRUE_val →
      accept_overlapped (.ok p) r e (.ok s) = .ok (s, true)) ∧
    (∀ p r e s, p ≠ 0 → r ≠ TRUE_val →
      ((accept_overlapped (.ok p) r e (.ok s) = .ok (s, false)) ↔ e = WSA_IO_PENDING)) ∧
    (∀ p r e s, p ≠ 0 → r ≠ TRUE_val → e ≠ WSA_IO_PENDING →
      accept_overlapped (.ok p) r e (.ok s) = .err e) := by
  refine ⟨?_, ?_, ?_, ?_, ?_, ?_, ?_, ?_, ?_, ?_, ?_, ?_, ?_, ?_, ?_, ?_, ?_, ?_, ?_, ?_, ?_,
    ?_, ?_, ?_⟩ <;> intros <;>
    simp_all [Handle.read_overlapped, Handle.write_overlapped, TcpStream.read_overlapped,
      TcpStream.write_overlapped, UdpSocket.recv_from_overlapped, UdpSocket.send_to_overlapped,
      connect_overlapped, accept_overlapped, rootCvt, cvt, last_err, ERROR_IO_PENDING,
      WSA_IO_PENDING, SOCKET_ERROR, TRUE_val] <;>
    split <;> simp_all <;> split_ifs at * <;> simp_all

end Miow

namespace Miow

/-- C4: the extension-pointer cache: in release builds a nonzero cached value
short-circuits every later call without issuing the control query; in
diagnostic builds the query still runs every time and a fresh value differing
from a nonzero cached value is a fatal assertion, so any value successfully
returned while a nonzero value is cached equals that cached value. -/
theorem wsa_extension_get_cache :
    (∀ prev r e ret bytes, prev ≠ 0 →
      WsaExtension.get false prev r e ret bytes = (.ok prev, prev)) ∧
    (∀ prev r e ret bytes, r = SOCKET_ERROR → e ≠ WSA_IO_PENDING →
      WsaExtension.get true prev r e ret bytes = (.err e, prev)) ∧
    (∀ prev r e ret, r ≠ SOCKET_ERROR → prev ≠ 0 → ret ≠ prev →
      WsaExtension.get true prev r e ret sizeof_usize = (.panicked, prev)) ∧
    (∀ prev r e ret bytes v st, WsaExtension.get true prev r e ret bytes = (.ok v, st) →
      prev ≠ 0 → v = prev) := by
  refine ⟨?_, ?_, ?_, ?_⟩ <;> intros <;>
    simp_all [WsaExtension.get, cvt, last_err, SOCKET_ERROR, WSA_IO_PENDING, sizeof_usize] <;>
    first
    | omega
    | (split_ifs at * <;> simp_all)

/-- C5: in the accept path, when the issuance outcome is synchronous success
or pending, a failure of the builder-to-stream conversion panics (the
`unwrap`) and is never surfaced as an ordinary error result. -/
theorem accept_conversion_never_err :
    ∀ p r e t, p ≠ 0 → (r = TRUE_val ∨ e = WSA_IO_PENDING) →
      accept_overlapped (.ok p) r e (.err t) = .panicked ∧
      ∀ c, accept_overlapped (.ok p) r e (.err t) ≠ .err c := by
  intro p r e t hp hiss
  rcases hiss with hr | he <;>
    simp_all [accept_overlapped, last_err, TRUE_val, WSA_IO_PENDING] <;>
    split <;> simp_all <;> split_ifs at * <;> simp_all

theorem last_err_err_code (e c : Int) (h : last_err e = .err c) : c = e := by
  unfold last_err at h
  split_ifs at h
  simp only [Res.err.injEq] at h
  omega

theorem cvt_err_code (r e c : Int) (h : cvt r e = .err c) : c = e := by
  unfold cvt at h
  split_ifs at h
  exact last_err_err_code e c h

theorem rootCvt_err_code (r e c : Int) (h : rootCvt r e = .err c) : c = e := by
  unfold rootCvt at h
  split_ifs at h
  simp only [Res.err.injEq] at h
  omega

theorem handle_read_err_code (h : Handle) (r e c : Int)
    (hh : Handle.read_overlapped h r e = .err c) : c = e := by
  unfold Handle.read_overlapped rootCvt at hh
  by_cases h0 : r = 0
  · by_cases hp : e = ERROR_IO_PENDING
    · simp [h0, hp] at hh
    · simp [h0, hp] at hh
      omega
  · simp [h0] at hh

theorem handle_write_err_code (h : Handle) (r e c : Int)
    (hh : Handle.write_overlapped h r e = .err c) : c = e := by
  unfold Handle.write_overlapped rootCvt at hh
  by_cases h0 : r = 0
  · by_cases hp : e = ERROR_IO_PENDING
    · simp [h0, hp] at hh
    · simp [h0, hp] at hh
      omega
  · simp [h0] at hh

theorem connect_err_code (p : Nat) (r e t c : Int)
    (h : connect_overlapped (.ok p) r e (.ok t) = .err c) : c = e := by
  unfold connect_overlapped at h
  by_cases hp : p = 0
  · simp [hp] at h
  · by_cases hr : r = TRUE_val
    · simp [hp, hr] at h
    · by_cases he : e = WSA_IO_PENDING <;> simp_all [last_err] <;> omega

theorem accept_err_code (p : Nat) (r e t c : Int)
    (h : accept_overlapped (.ok p) r e (.ok t) = .err c) : c = e := by
  unfold accept_overlapped at h
  by_cases hp : p = 0
  · simp [hp] at h
  · by_cases hr : r = TRUE_val
    · simp [hp, hr] at h
    · by_cases he : e = WSA_IO_PENDING <;> simp_all [last_err] <;> omega

theorem connect_propagate_get_err (g : Int) (r e : Int) (t : Res Int) (c : Int)
    (h : connect_overlapped (.err g) r e t = .err c) : c = g := by
  simp [connect_overlapped] at h
  omega

theorem accept_propagate_get_err (g : Int) (r e : Int) (t : Res Int) (c : Int)
    (h : accept_overlapped (.err g) r e t = .err c) : c = g := by
  simp [accept_overlapped] at h
  omega

theorem connect_stream_err_code (p : Nat) (r e t c : Int)
    (h : connect_overlapped (.ok p) r e (.err t) = .err c) : c = t ∨ c = e := by
  unfold connect_overlapped at h
  by_cases hp : p = 0
  · simp [hp] at h
  · by_cases hr : r = TRUE_val
    · simp [hp, hr] at h
      omega
    · by_cases he : e = WSA_IO_PENDING <;> simp_all [last_err] <;> omega

theorem wsa_get_err_code (dbg : Bool) (prev : Nat) (r e : Int) (ret bytes : Nat) (c : Int)
    (st : Nat) (h : WsaExtension.get dbg prev r e ret bytes = (.err c, st)) : c = e := by
  unfold WsaExtension.get at h
  by_cases hsc : prev ≠ 0 ∧ ¬dbg
  · rw [if_pos hsc] at h
    simp at h
  · rw [if_neg hsc] at h
    by_cases hc : r = SOCKET_ERROR
    · by_cases hp : e = WSA_IO_PENDING
      · simp [cvt, last_err, hc, hp] at h
        split_ifs at h <;> simp_all
      · simp [cvt, last_err, hc, hp] at h
        omega
    · simp [cvt, hc] at h
      split_ifs at h <;> simp_all

/-- C6: every error result produced by this layer carries, unmodified, the
raw OS error code retrieved from the last-error mechanism at the failure
site. -/
theorem errors_carry_os_code :
    (∀ e c, last_err e = .err c → c = e) ∧
    (∀ r e c, cvt r e = .err c → c = e) ∧
    (∀ r e c, rootCvt r e = .err c → c = e) ∧
    (∀ h r e c, Handle.read_overlapped h r e = .err c → c = e) ∧
    (∀ h r e c, Handle.write_overlapped h r e = .err c → c = e) ∧
    (∀ r e c, TcpStream.read_overlapped r e = .err c → c = e) ∧
    (∀ r e c, TcpStream.write_overlapped r e = .err c → c = e) ∧
    (∀ r e c, UdpSocket.recv_from_overlapped r e = .err c → c = e) ∧
    (∀ a r e c, (UdpSocket.send_to_overlapped a r e).1 = .err c → c = e) ∧
    (∀ p r e t c, connect_overlapped (.ok p) r e (.ok t) = .err c → c = e) ∧
    (∀ p r e t c, accept_overlapped (.ok p) r e (.ok t) = .err c → c = e) ∧
    (∀ g r e t c, connect_overlapped (.err g) r e t = .err c → c = g) ∧
    (∀ g r e t c, accept_overlapped (.err g) r e t = .err c → c = g) ∧
    (∀ p r e t c, connect_overlapped (.ok p) r e (.err t) = .err c → c = t ∨ c = e) ∧
    (∀ dbg prev r e ret bytes c st,
      WsaExtension.get dbg prev r e ret bytes = (.err c, st) → c = e) :=
  ⟨last_err_err_code, cvt_err_code, rootCvt_err_code,
    handle_read_err_code, handle_write_err_code,
    cvt_err_code, cvt_err_code, cvt_err_code, fun _ => cvt_err_code,
    connect_err_code, accept_err_code, connect_propagate_get_err, accept_propagate_get_err,
    connect_stream_err_code, wsa_get_err_code⟩

/-- C7: `into_raw` returns exactly the raw value the wrapper was constructed
with and performs no close; destruction closes the wrapped handle exactly
once, unconditionally, ignoring the close call's result. -/
theorem handle_lifecycle :
    (∀ raw, (Handle.new raw).into_raw = (raw, [])) ∧
    (∀ h : Handle, (h.into_raw).2 = []) ∧
    (∀ (h : Handle) closeRet, h.drop closeRet = ((), [h.raw])) ∧
    (∀ (h : Handle) closeRet, (h.drop closeRet).2.length = 1) :=
  ⟨fun _ => rfl, fun _ => rfl, fun _ _ => rfl, fun _ _ => rfl⟩

/-- C8: `AcceptAddrsBuf` is two storage-sized regions each followed by 16
padding bytes, created entirely zeroed, and its argument tuple describes a
local region whose length is the remote field's offset and a remote region
covering the remaining bytes, each exceeding the maximum address size by 16
bytes of slack. -/
theorem accept_addrs_buf_layout :
    AcceptAddrsBuf.new.length = AcceptAddrsBuf.size ∧
    AcceptAddrsBuf.new.all (fun b => b == 0) = true ∧
    AcceptAddrsBuf.remote_offset = sizeof_SOCKADDR_STORAGE + 16 ∧
    AcceptAddrsBuf.size = 2 * sizeof_SOCKADDR_STORAGE + 32 ∧
    AcceptAddrsBuf.args =
      (0, AcceptAddrsBuf.remote_offset, AcceptAddrsBuf.size - AcceptAddrsBuf.remote_offset) ∧
    AcceptAddrsBuf.args.2.1 = sizeof_SOCKADDR_STORAGE + 16 ∧
    AcceptAddrsBuf.args.2.2 = sizeof_SOCKADDR_STORAGE + 16 := by
  refine ⟨by simp [AcceptAddrsBuf.new], ?_, by decide, by decide, rfl, by decide, by decide⟩
  rw [List.all_eq_true]
  intro x hx
  rw [List.eq_of_mem_replicate hx]
  rfl

/-- C9: a freshly created `SocketAddrBuf` (zeroed storage, length the full
storage size) decodes to no address, because the zeroed family tag is
unrecognized. -/
theorem socket_addr_buf_new_decodes_none :
    SocketAddrBuf.to_socket_addr SocketAddrBuf.new = none := by decide

end Miow

namespace Miow

/-- C1: decoding the raw pointer and length pair produced by encoding a
portable socket address of either family yields exactly that address,
preserving the port and, for IPv6, the flow-info and scope-id fields. -/
theorem decode_encode_roundtrip (A : SocketAddr) (h : A.valid) :
    ptrs_to_socket_addr (socket_addr_to_ptrs A).1 (socket_addr_to_ptrs A).2 = some A := by
  cases A with
  | V4 a => exact roundtrip_v4 a h
  | V6 a => exact roundtrip_v6 a h

/-- Witness for C1 at one concrete address per family. -/
theorem decode_encode_roundtrip_witness :
    SocketAddr.valid (.V4 ⟨⟨127, 0, 0, 1⟩, 8080⟩) ∧
    ptrs_to_socket_addr (socket_addr_to_ptrs (.V4 ⟨⟨127, 0, 0, 1⟩, 8080⟩)).1
        (socket_addr_to_ptrs (.V4 ⟨⟨127, 0, 0, 1⟩, 8080⟩)).2 =
      some (.V4 ⟨⟨127, 0, 0, 1⟩, 8080⟩) ∧
    SocketAddr.valid (.V6 ⟨⟨8193, 3512, 0, 0, 0, 0, 0, 1⟩, 443, 5, 7⟩) ∧
    ptrs_to_socket_addr (socket_addr_to_ptrs (.V6 ⟨⟨8193, 3512, 0, 0, 0, 0, 0, 1⟩, 443, 5, 7⟩)).1
        (socket_addr_to_ptrs (.V6 ⟨⟨8193, 3512, 0, 0, 0, 0, 0, 1⟩, 443, 5, 7⟩)).2 =
      some (.V6 ⟨⟨8193, 3512, 0, 0, 0, 0, 0, 1⟩, 443, 5, 7⟩) :=
  ⟨by norm_num [SocketAddr.valid, SocketAddrV4.valid],
   decode_encode_roundtrip _ (by norm_num [SocketAddr.valid, SocketAddrV4.valid]),
   by norm_num [SocketAddr.valid, SocketAddrV6.valid],
   decode_encode_roundtrip _ (by norm_num [SocketAddr.valid, SocketAddrV6.valid])⟩

/-- C2: the decoder returns no address for any buffer whose declared length is
below the family-tag size, and for a recognized family whose declared length
is below that family's full structure size; it is a total function and its
result is unchanged by truncating the buffer at the declared length, so it
never reads beyond the declared buffer. -/
theorem decode_length_guards :
    (∀ (bytes : List Nat) (len : Int), 0 ≤ len → len < 2 →
      ptrs_to_socket_addr bytes len = none) ∧
    (∀ (bytes : List Nat) (len : Int), 0 ≤ len → len < 16 → readLE bytes 0 2 = AF_INET →
      ptrs_to_socket_addr bytes len = none) ∧
    (∀ (bytes : List Nat) (len : Int), 0 ≤ len → len < 28 → readLE bytes 0 2 = AF_INET6 →
      ptrs_to_socket_addr bytes len = none) ∧
    (∀ (bytes : List Nat) (len : Int),
      ptrs_to_socket_addr bytes len = ptrs_to_socket_addr (bytes.take (usizeOfInt len)) len) :=
  ⟨decode_guard_short, decode_guard_v4, decode_guard_v6, decode_take⟩

/-- Witness for C2 at concrete buffers and lengths. -/
theorem decode_length_guards_witness :
    ptrs_to_socket_addr [2, 0, 31, 144] 1 = none ∧
    ptrs_to_socket_addr [2, 0, 31, 144, 127, 0, 0, 1] 8 = none ∧
    ptrs_to_socket_addr [23, 0, 1, 187] 20 = none ∧
    ptrs_to_socket_addr [2, 0] 2 = ptrs_to_socket_addr ([2, 0].take (usizeOfInt 2)) 2 :=
  ⟨decode_length_guards.1 _ 1 (by decide) (by decide),
   decode_length_guards.2.1 _ 8 (by decide) (by decide) (by decide),
   decode_length_guards.2.2.1 _ 20 (by decide) (by decide) (by decide),
   decode_length_guards.2.2.2 [2, 0] 2⟩

/-- Witness for C3 at concrete return and error values. -/
theorem overlapped_three_way_witness :
    Handle.read_overlapped (Handle.new 5) 1 0 = .ok true ∧
    Handle.read_overlapped (Handle.new 5) 0 ERROR_IO_PENDING = .ok false ∧
    Handle.read_overlapped (Handle.new 5) 0 42 = .err 42 ∧
    TcpStream.read_overlapped SOCKET_ERROR WSA_IO_PENDING = .ok false ∧
    connect_overlapped (.ok 1) TRUE_val 0 (.ok 7) = .ok (7, true) ∧
    accept_overlapped (.ok 1) 0 WSA_IO_PENDING (.ok 9) = .ok (9, false) := by
  obtain ⟨hro, hri, hre, _, _, _, _, htcpiff, _, _, _, _, _, _, _, _, _, _, hcok, _, _, _,
    haiff, _⟩ := overlapped_three_way
  exact ⟨hro (Handle.new 5) 1 0 (by decide),
    (hri (Handle.new 5) 0 ERROR_IO_PENDING rfl).mpr rfl,
    hre (Handle.new 5) 0 42 rfl (by decide),
    (htcpiff SOCKET_ERROR WSA_IO_PENDING rfl).mpr rfl,
    hcok 1 TRUE_val 0 7 (by decide) rfl,
    (haiff 1 0 WSA_IO_PENDING 9 (by decide) (by decide)).mpr rfl⟩

/-- Witness for C4 at concrete cache states. -/
theorem wsa_extension_get_cache_witness :
    WsaExtension.get false 42 0 0 7 8 = (.ok 42, 42) ∧
    WsaExtension.get true 42 SOCKET_ERROR 5 7 8 = (.err 5, 42) ∧
    WsaExtension.get true 42 0 0 43 sizeof_usize = (.panicked, 42) ∧
    (7 : Nat) = 7 :=
  ⟨wsa_extension_get_cache.1 42 0 0 7 8 (by decide),
   wsa_extension_get_cache.2.1 42 SOCKET_ERROR 5 7 8 rfl (by decide),
   wsa_extension_get_cache.2.2.1 42 0 0 43 (by decide) (by decide) (by decide),
   wsa_extension_get_cache.2.2.2 7 0 0 7 8 7 7 (by decide) (by decide)⟩

/-- Witness for C5: a failed conversion after a successful or pending accept
issuance panics and is not an error result. -/
theorem accept_conversion_never_err_witness :
    accept_overlapped (.ok 1) TRUE_val 0 (.err 99) = .panicked ∧
    accept_overlapped (.ok 1) 0 WSA_IO_PENDING (.err 99) ≠ .err 99 :=
  ⟨(accept_conversion_never_err 1 TRUE_val 0 99 (by decide) (Or.inl rfl)).1,
   (accept_conversion_never_err 1 0 WSA_IO_PENDING 99 (by decide) (Or.inr rfl)).2 99⟩

/-- Witness for C6: a non-pending failure code surfaces unmodified. -/
theorem errors_carry_os_code_witness :
    last_err 10054 = .err 10054 ∧ (10054 : Int) = 10054 :=
  ⟨by decide, errors_carry_os_code.1 10054 10054 (by decide)⟩

/-- Witness for C10: a byte appended beyond the recognized structure size does
not change the decoded result. -/
theorem decode_prefix_witness :
    ptrs_to_socket_addr [2, 0, 31, 144, 127, 0, 0, 1, 0, 0, 0, 0, 0, 0, 0, 0] 17 =
      ptrs_to_socket_addr [2, 0, 31, 144, 127, 0, 0, 1, 0, 0, 0, 0, 0, 0, 0, 0, 99] 17 :=
  decode_prefix _ _ 17 (by decide)

end Miow
